import Mathlib

/-!
Verification of the `broadcaster` package (blockchain.go): a shallow embedding
of the sequence-management and retry protocol of the single-account transaction
broadcaster, together with theorems about the frozen behavioural claims.

The embedding follows src/blockchain.go.  External collaborators (gas
estimation, transaction build/sign/encode, node submission, account queries)
are modelled as environments that supply each collaborator call's outcome;
the broadcaster's own control flow, state mutation and error wrapping are
translated statement by statement.
-/

namespace Broadcaster

/-! ### getNextSequence (blockchain.go lines 51 and 268-278)

The Go code matches the raw error text against the regular expression

  `.+account sequence mismatch, expected (\d+), got \d+:.+`

(`regexp.FindStringSubmatch`, leftmost-first semantics, `.` excludes the
newline character, all quantifiers greedy) and parses the first capture group
with `strconv.ParseUint(_, 10, 64)`, which clamps out-of-range values to the
maximum uint64.  The matcher below implements exactly this one pattern:

* `patTail` matches `account sequence mismatch, expected (\d+), got \d+:.+`
  at the head of a list: the literal, a maximal nonempty digit run (greedy
  `\d+` must be followed by the non-digit `,`, so only the maximal run can
  succeed), the literal `, got `, another maximal digit run, `:`, and at
  least one following non-newline character;
* `dotPlusThen` implements greedy `.+` before the literal: it consumes one or
  more non-newline characters, preferring longer runs (so the rightmost
  viable occurrence of the literal wins, as with a greedy dot-plus);
* `regexScan` tries successive start positions left to right (leftmost match
  wins, as with Go's unanchored search).
-/

def expectedLit : List Char := "account sequence mismatch, expected ".toList

def gotLit : List Char := ", got ".toList

/-- Strips the literal `p` from the front of `l`, returning the rest. -/
def stripLit : List Char → List Char → Option (List Char)
  | [], l => some l
  | _ :: _, [] => none
  | c :: cs, x :: xs => if x = c then stripLit cs xs else none

/-- ASCII decimal digit test (RE2's `\d`). -/
def isDigitChar (c : Char) : Bool := 48 ≤ c.toNat && c.toNat ≤ 57

/-- Splits off the maximal (possibly empty) run of digits at the head. -/
def splitDigits : List Char → List Char × List Char
  | [] => ([], [])
  | c :: cs =>
    if isDigitChar c then (c :: (splitDigits cs).1, (splitDigits cs).2)
    else ([], c :: cs)

/-- Matches `account sequence mismatch, expected (\d+), got \d+:.+` at the
head of the list, returning the digits of the capture group. -/
def patTail (l : List Char) : Option (List Char) :=
  match stripLit expectedLit l with
  | none => none
  | some r1 =>
    if (splitDigits r1).1 = [] then none
    else
      match stripLit gotLit (splitDigits r1).2 with
      | none => none
      | some r3 =>
        if (splitDigits r3).1 = [] then none
        else
          match stripLit [':'] (splitDigits r3).2 with
          | none => none
          | some r4 =>
            match r4 with
            | [] => none
            | c :: _ => if c = '\n' then none else some (splitDigits r1).1

/-- Greedy `.+` followed by `cont`: consume one or more non-newline
characters, preferring the longest run. -/
def dotPlusThen (cont : List Char → Option (List Char)) : List Char → Option (List Char)
  | [] => none
  | c :: rest =>
    if c = '\n' then none
    else
      match dotPlusThen cont rest with
      | some v => some v
      | none => cont rest

/-- Unanchored leftmost search for the whole pattern. -/
def regexScan : List Char → Option (List Char)
  | [] => none
  | c :: rest =>
    match dotPlusThen patTail (c :: rest) with
    | some v => some v
    | none => regexScan rest

def digitVal (c : Char) : Nat := c.toNat - 48

/-- Value of a digit string. -/
def digitsToNat (l : List Char) : Nat := l.foldl (fun a c => a * 10 + digitVal c) 0

def uint64Max : Nat := 2 ^ 64 - 1

/-- `strconv.ParseUint(s, 10, 64)` on an all-digit nonempty string: the exact
value, clamped to the maximum uint64 on range overflow (the Go code ignores
the accompanying range error). -/
def parseUint64 (l : List Char) : Nat := min (digitsToNat l) uint64Max

/-- `getNextSequence` (blockchain.go lines 268-278): extract the node's
expected sequence from an error text, 0 when the pattern does not match. -/
def getNextSequence (m : String) : Nat :=
  match regexScan m.data with
  | none => 0
  | some d => parseUint64 d

/-! ### The broadcaster state and its collaborators

`broadcaster` (blockchain.go lines 53-58) owns a `tx.Factory` whose mutable,
observable parts across calls are the account number, the sequence number and
the configured gas limit (`0` means "estimate by a dry run").  The factory's
fees, memo and float64 gas adjustment are pass-through configuration: the
memo and the gas-adjustment normalisation (lines 190-194) touch only the
local copy `txf` and influence none of the modelled outcomes, so they are not
part of the state.  All machine integers are uint64, modelled as `Nat` with
an explicit `% 2 ^ 64` where the code can overflow. -/

def uint64Mod : Nat := 2 ^ 64

/-- The observable `b.txf` state of a `broadcaster`. -/
structure BState where
  accountNumber : Nat
  sequence : Nat
  gas : Nat
deriving Repr, DecidableEq

/-- The part of `sdk.TxResponse` the code inspects: the response code, the
raw log (scanned for the mismatch pattern) and the `resp.String()` rendering
used in the generic failure message. -/
structure TxResponse where
  code : Nat
  rawLog : String
  respString : String
deriving Repr, DecidableEq

/-- Outcome of `tx.CalculateGas`: an estimated gas value or an error text. -/
inductive CalcGasResult
  | ok (gas : Nat)
  | err (msg : String)
deriving Repr, DecidableEq

def CalcGasResult.isOk : CalcGasResult → Bool
  | .ok _ => true
  | .err _ => false

/-- Outcomes the external collaborators give to one attempt of `broadcast`:
gas estimation, `tx.BuildUnsignedTx`, `tx.Sign`, the tx encoder, and
`BroadcastTx` (transport error, or the node's response). -/
structure AttemptEnv where
  calcGas : CalcGasResult
  buildErr : Option String
  signErr : Option String
  encodeErr : Option String
  sendErr : Option String
  resp : TxResponse
deriving Repr, DecidableEq

/-- `sdkerrors.ErrTxInMempoolCache.ABCICode()`: ABCI code 19 in the
cosmos-sdk error registry. -/
def errTxInMempoolCacheCode : Nat := 19

/-- Errors produced inside `broadcast`, one constructor per `fmt.Errorf`
wrapping site plus the `ErrTxInMempoolCache` sentinel. -/
inductive BroadcastError
  | calcGas (e : String)
  | buildTx (e : String)
  | signTx (e : String)
  | encodeTx (e : String)
  | broadcastTx (e : String)
  | txInMempoolCache
  | broadcastFailed (respStr : String)
deriving Repr, DecidableEq

/-- The `Error()` string of each error, following the Go format strings. -/
def BroadcastError.render : BroadcastError → String
  | .calcGas e => "failed to calculate gas: " ++ e
  | .buildTx e => "failed to build tx: " ++ e
  | .signTx e => "failed to sign tx: " ++ e
  | .encodeTx e => "failed to encode tx: " ++ e
  | .broadcastTx e => "failed to broadcast tx: " ++ e
  | .txInMempoolCache => "tx is already in mempool cache"
  | .broadcastFailed r => "failed to broadcast tx: " ++ r

/-- The collaborator invocations one `broadcast` call performs, in order; a
send records the sequence number carried by the submitted transaction. -/
inductive Step
  | calcGas
  | build
  | sign
  | encode
  | send (seq : Nat)
deriving Repr, DecidableEq

deriving instance DecidableEq for Except

/-- Result, post-state and collaborator trace of one `broadcast` invocation. -/
structure BOut where
  result : Except BroadcastError TxResponse
  state : BState
  trace : List Step
deriving Repr, DecidableEq

/-- The sequences submitted to the node, in order. -/
def sends (tr : List Step) : List Nat :=
  tr.filterMap fun st => match st with | .send q => some q | _ => none

/-! ### broadcast (blockchain.go lines 184-251)

The Go function takes an `isRetry` flag; both recursion sites pass `true`
and both are guarded by `!isRetry`, so an `isRetry = true` invocation is
straight-line.  The embedding therefore partially evaluates the body at each
flag value: `broadcastRetry` is the body with `isRetry = true` (the two
guarded blocks removed, no lock operations), and `broadcastFirst` is the body
with `isRetry = false`, recursing into `broadcastRetry` exactly where the Go
code recurses.  The shared build → sign → encode → send block (lines
212-230) is factored as `buildSignEncodeSend`. -/

/-- Outcome of the build → sign → encode → send block: the stage error or
the node's response, with the trace of executed collaborator calls. -/
inductive SendOutcome
  | failed (e : BroadcastError) (tr : List Step)
  | sent (resp : TxResponse) (tr : List Step)
deriving Repr, DecidableEq

/-- Lines 212-230: `tx.BuildUnsignedTx`, `tx.Sign`, the tx encoder and
`b.ctx.BroadcastTx`, each failure wrapped with its stage and fatal for the
attempt.  `seqUsed` is the sequence of the local factory copy, recorded on
the submission. -/
def buildSignEncodeSend (env : AttemptEnv) (seqUsed : Nat) : SendOutcome :=
  match env.buildErr with
  | some e => .failed (.buildTx e) [.build]
  | none =>
    match env.signErr with
    | some e => .failed (.signTx e) [.build, .sign]
    | none =>
      match env.encodeErr with
      | some e => .failed (.encodeTx e) [.build, .sign, .encode]
      | none =>
        match env.sendErr with
        | some e => .failed (.broadcastTx e) [.build, .sign, .encode, .send seqUsed]
        | none => .sent env.resp [.build, .sign, .encode, .send seqUsed]

/-- Response-code inspection (lines 232-250) for `isRetry = true`: mempool
sentinel, then — the `!isRetry` block being skipped — the generic failure;
code 0 advances the stored sequence by one (uint64 increment). -/
def broadcastRetryAfterGas (env : AttemptEnv) (s : BState) (pre : List Step) : BOut :=
  match buildSignEncodeSend env s.sequence with
  | .failed e tr => ⟨.error e, s, pre ++ tr⟩
  | .sent resp tr =>
    if resp.code ≠ 0 then
      if resp.code = errTxInMempoolCacheCode then
        ⟨.error .txInMempoolCache, s, pre ++ tr⟩
      else
        ⟨.error (.broadcastFailed resp.respString), s, pre ++ tr⟩
    else
      ⟨.ok resp, { s with sequence := (s.sequence + 1) % uint64Mod }, pre ++ tr⟩

/-- `broadcast(msgs, memo, true)` (blockchain.go lines 184-251 with
`isRetry = true`): no lock, gas estimation when no fixed gas is configured —
an estimation failure is wrapped and returned (line 207) — then the
submission block and the response inspection. -/
def broadcastRetry {Msg : Type} (msgs : List Msg) (memo : String)
    (env : AttemptEnv) (s : BState) : BOut :=
  if s.gas = 0 then
    match env.calcGas with
    | .err e => ⟨.error (.calcGas e), s, [.calcGas]⟩
    | .ok _gas => broadcastRetryAfterGas env s [Step.calcGas]
  else broadcastRetryAfterGas env s []

/-- Response-code inspection (lines 232-250) for `isRetry = false`: mempool
sentinel, then lines 237-243: extract a sequence from the raw log, store it
in `b.txf` when nonzero, and recurse with `isRetry = true` — unconditionally,
whether or not the extraction produced a correction. -/
def broadcastFirstAfterGas {Msg : Type} (msgs : List Msg) (memo : String)
    (envF envR : AttemptEnv) (s : BState) (pre : List Step) : BOut :=
  match buildSignEncodeSend envF s.sequence with
  | .failed e tr => ⟨.error e, s, pre ++ tr⟩
  | .sent resp tr =>
    if resp.code ≠ 0 then
      if resp.code = errTxInMempoolCacheCode then
        ⟨.error .txInMempoolCache, s, pre ++ tr⟩
      else
        if getNextSequence resp.rawLog ≠ 0 then
          match broadcastRetry msgs memo envR { s with sequence := getNextSequence resp.rawLog } with
          | ⟨res, s2, tr2⟩ => ⟨res, s2, (pre ++ tr) ++ tr2⟩
        else
          match broadcastRetry msgs memo envR s with
          | ⟨res, s2, tr2⟩ => ⟨res, s2, (pre ++ tr) ++ tr2⟩
    else
      ⟨.ok resp, { s with sequence := (s.sequence + 1) % uint64Mod }, pre ++ tr⟩

/-- `broadcast(msgs, memo, false)` (blockchain.go lines 184-251 with
`isRetry = false`): acquires the lock (released when the whole call,
including the nested retry, returns), estimates gas when none is configured —
on an estimation failure, lines 199-204: extract a sequence from the error
text, store it when nonzero, and recurse with `isRetry = true`,
unconditionally — then the submission block and the response inspection. -/
def broadcastFirst {Msg : Type} (msgs : List Msg) (memo : String)
    (envF envR : AttemptEnv) (s : BState) : BOut :=
  if s.gas = 0 then
    match envF.calcGas with
    | .err e =>
      if getNextSequence e ≠ 0 then
        match broadcastRetry msgs memo envR { s with sequence := getNextSequence e } with
        | ⟨res, s2, tr2⟩ => ⟨res, s2, Step.calcGas :: tr2⟩
      else
        match broadcastRetry msgs memo envR s with
        | ⟨res, s2, tr2⟩ => ⟨res, s2, Step.calcGas :: tr2⟩
    | .ok _gas => broadcastFirstAfterGas msgs memo envF envR s [Step.calcGas]
  else broadcastFirstAfterGas msgs memo envF envR s []

/-- The error of the exported `Broadcast`: every internal error is wrapped
once as `failed to broadcast: %w` (blockchain.go line 165). -/
inductive CallError
  | wrapped (inner : BroadcastError)
deriving Repr, DecidableEq

def CallError.render : CallError → String
  | .wrapped e => "failed to broadcast: " ++ e.render

/-- `errors.Is(err, ErrTxInMempoolCache)` on the wrapped chain. -/
def CallError.isTxInMempoolCache : CallError → Bool
  | .wrapped .txInMempoolCache => true
  | .wrapped _ => false

/-- Result, post-state and trace of one exported `Broadcast` call. -/
structure CallOut where
  result : Except CallError TxResponse
  state : BState
  trace : List Step
deriving Repr, DecidableEq

/-- `Broadcast` (blockchain.go lines 161-169): run the internal broadcast
with `isRetry = false` and wrap any error. -/
def Broadcast {Msg : Type} (msgs : List Msg) (memo : String)
    (envF envR : AttemptEnv) (s : BState) : CallOut :=
  match broadcastFirst msgs memo envF envR s with
  | ⟨.error e, s2, tr⟩ => ⟨.error (.wrapped e), s2, tr⟩
  | ⟨.ok resp, s2, tr⟩ => ⟨.ok resp, s2, tr⟩

/-- `BroadcastMsg` (blockchain.go lines 156-158): broadcast the singleton
message list. -/
def BroadcastMsg {Msg : Type} (msg : Msg) (memo : String)
    (envF envR : AttemptEnv) (s : BState) : CallOut :=
  Broadcast [msg] memo envF envR s

/-! ### refreshSequence (blockchain.go lines 253-266) -/

/-- Outcomes of the account retriever: `EnsureExists` (fails when the
account is unknown on-chain) and `GetAccountNumberSequence`. -/
structure AccountEnv where
  ensureExists : Option String
  accountNumberSequence : Except String (Nat × Nat)
deriving Repr, DecidableEq

inductive RefreshError
  | ensureExists (e : String)
  | getAccountNumberSequence (e : String)
deriving Repr, DecidableEq

def RefreshError.render : RefreshError → String
  | .ensureExists e => "failed to EnsureExists: " ++ e
  | .getAccountNumberSequence e => "failed to get GetAccountNumberSequence: " ++ e

/-- `refreshSequence`: ensure the account exists, query its number and
sequence, and overwrite both in the local factory state. -/
def refreshSequence (env : AccountEnv) (s : BState) : Except RefreshError Unit × BState :=
  match env.ensureExists with
  | some e => (.error (.ensureExists e), s)
  | none =>
    match env.accountNumberSequence with
    | .error e => (.error (.getAccountNumberSequence e), s)
    | .ok (num, seq) => (.ok (), { s with accountNumber := num, sequence := seq })

/-! ### Path lemmas for the broadcast control flow -/

/-- The gas-estimation step recorded by an attempt: present exactly when no
fixed gas limit is configured. -/
def gasPre (g : Nat) : List Step := if g = 0 then [Step.calcGas] else []

/-- The attempt's environment lets the code reach the submission: the gas
limit is fixed or estimation succeeds, and build, sign and encode succeed. -/
def ReachesSend (e : AttemptEnv) (gas : Nat) : Prop :=
  (gas = 0 → e.calcGas.isOk = true) ∧ e.buildErr = none ∧ e.signErr = none ∧
    e.encodeErr = none ∧ e.sendErr = none

instance (e : AttemptEnv) (g : Nat) : Decidable (ReachesSend e g) := by
  unfold ReachesSend; infer_instance

/-- The attempt reaches the submission and the node accepts: response code 0. -/
def FirstAttemptClean (e : AttemptEnv) (gas : Nat) : Prop :=
  ReachesSend e gas ∧ e.resp.code = 0

instance (e : AttemptEnv) (g : Nat) : Decidable (FirstAttemptClean e g) := by
  unfold FirstAttemptClean; infer_instance

theorem buildSignEncodeSend_sent (e : AttemptEnv) (q : Nat)
    (hb : e.buildErr = none) (hs : e.signErr = none) (he : e.encodeErr = none)
    (hn : e.sendErr = none) :
    buildSignEncodeSend e q = .sent e.resp [.build, .sign, .encode, .send q] := by
  simp [buildSignEncodeSend, hb, hs, he, hn]

theorem broadcastRetry_gas (Msg : Type) (msgs : List Msg) (memo : String)
    (e : AttemptEnv) (s : BState) (h : s.gas = 0 → e.calcGas.isOk = true) :
    broadcastRetry msgs memo e s = broadcastRetryAfterGas e s (gasPre s.gas) := by
  unfold broadcastRetry gasPre
  by_cases hg : s.gas = 0
  · have := h hg
    cases hc : e.calcGas with
    | ok g => simp [hg, hc]
    | err m => rw [hc] at this; simp [CalcGasResult.isOk] at this
  · simp [hg]

theorem broadcastFirst_gas (Msg : Type) (msgs : List Msg) (memo : String)
    (envF envR : AttemptEnv) (s : BState) (h : s.gas = 0 → envF.calcGas.isOk = true) :
    broadcastFirst msgs memo envF envR s =
      broadcastFirstAfterGas msgs memo envF envR s (gasPre s.gas) := by
  unfold broadcastFirst gasPre
  by_cases hg : s.gas = 0
  · have := h hg
    cases hc : envF.calcGas with
    | ok g => simp [hg, hc]
    | err m => rw [hc] at this; simp [CalcGasResult.isOk] at this
  · simp [hg]

theorem broadcastRetryAfterGas_ok (e : AttemptEnv) (s : BState) (pre : List Step)
    (hr : ReachesSend e s.gas) (hc : e.resp.code = 0) :
    broadcastRetryAfterGas e s pre =
      ⟨.ok e.resp, { s with sequence := (s.sequence + 1) % uint64Mod },
        pre ++ [.build, .sign, .encode, .send s.sequence]⟩ := by
  obtain ⟨-, hb, hs, he, hn⟩ := hr
  unfold broadcastRetryAfterGas
  rw [buildSignEncodeSend_sent e s.sequence hb hs he hn]
  simp [hc]

theorem broadcastRetryAfterGas_mempool (e : AttemptEnv) (s : BState) (pre : List Step)
    (hr : ReachesSend e s.gas) (hc : e.resp.code = errTxInMempoolCacheCode) :
    broadcastRetryAfterGas e s pre =
      ⟨.error .txInMempoolCache, s, pre ++ [.build, .sign, .encode, .send s.sequence]⟩ := by
  obtain ⟨-, hb, hs, he, hn⟩ := hr
  unfold broadcastRetryAfterGas
  rw [buildSignEncodeSend_sent e s.sequence hb hs he hn]
  have : e.resp.code ≠ 0 := by rw [hc]; simp [errTxInMempoolCacheCode]
  simp [this, hc, errTxInMempoolCacheCode]

theorem broadcastRetryAfterGas_failed (e : AttemptEnv) (s : BState) (pre : List Step)
    (hr : ReachesSend e s.gas) (hc : e.resp.code ≠ 0)
    (hm : e.resp.code ≠ errTxInMempoolCacheCode) :
    broadcastRetryAfterGas e s pre =
      ⟨.error (.broadcastFailed e.resp.respString), s,
        pre ++ [.build, .sign, .encode, .send s.sequence]⟩ := by
  obtain ⟨-, hb, hs, he, hn⟩ := hr
  unfold broadcastRetryAfterGas
  rw [buildSignEncodeSend_sent e s.sequence hb hs he hn]
  simp [hc, hm]

theorem broadcastFirstAfterGas_ok (Msg : Type) (msgs : List Msg) (memo : String)
    (envF envR : AttemptEnv) (s : BState) (pre : List Step)
    (hr : ReachesSend envF s.gas) (hc : envF.resp.code = 0) :
    broadcastFirstAfterGas msgs memo envF envR s pre =
      ⟨.ok envF.resp, { s with sequence := (s.sequence + 1) % uint64Mod },
        pre ++ [.build, .sign, .encode, .send s.sequence]⟩ := by
  obtain ⟨-, hb, hs, he, hn⟩ := hr
  unfold broadcastFirstAfterGas
  rw [buildSignEncodeSend_sent envF s.sequence hb hs he hn]
  simp [hc]

theorem broadcastFirstAfterGas_mempool (Msg : Type) (msgs : List Msg) (memo : String)
    (envF envR : AttemptEnv) (s : BState) (pre : List Step)
    (hr : ReachesSend envF s.gas) (hc : envF.resp.code = errTxInMempoolCacheCode) :
    broadcastFirstAfterGas msgs memo envF envR s pre =
      ⟨.error .txInMempoolCache, s, pre ++ [.build, .sign, .encode, .send s.sequence]⟩ := by
  obtain ⟨-, hb, hs, he, hn⟩ := hr
  unfold broadcastFirstAfterGas
  rw [buildSignEncodeSend_sent envF s.sequence hb hs he hn]
  have : envF.resp.code ≠ 0 := by rw [hc]; simp [errTxInMempoolCacheCode]
  simp [this, hc, errTxInMempoolCacheCode]

theorem broadcastFirstAfterGas_conflict (Msg : Type) (msgs : List Msg) (memo : String)
    (envF envR : AttemptEnv) (s : BState) (pre : List Step)
    (hr : ReachesSend envF s.gas) (hc : envF.resp.code ≠ 0)
    (hm : envF.resp.code ≠ errTxInMempoolCacheCode) :
    broadcastFirstAfterGas msgs memo envF envR s pre =
      (match broadcastRetry msgs memo envR
          (if getNextSequence envF.resp.rawLog ≠ 0 then
            { s with sequence := getNextSequence envF.resp.rawLog } else s) with
       | ⟨res, s2, tr2⟩ =>
         ⟨res, s2, (pre ++ [.build, .sign, .encode, .send s.sequence]) ++ tr2⟩) := by
  obtain ⟨-, hb, hs, he, hn⟩ := hr
  unfold broadcastFirstAfterGas
  rw [buildSignEncodeSend_sent envF s.sequence hb hs he hn]
  by_cases hx : getNextSequence envF.resp.rawLog ≠ 0 <;> simp [hc, hm, hx]

/-- `Broadcast` is the internal broadcast with its error wrapped once. -/
def wrapResult : Except BroadcastError TxResponse → Except CallError TxResponse
  | .error e => .error (.wrapped e)
  | .ok r => .ok r

theorem Broadcast_eq (Msg : Type) (msgs : List Msg) (memo : String)
    (envF envR : AttemptEnv) (s : BState) :
    Broadcast msgs memo envF envR s =
      ⟨wrapResult (broadcastFirst msgs memo envF envR s).result,
        (broadcastFirst msgs memo envF envR s).state,
        (broadcastFirst msgs memo envF envR s).trace⟩ := by
  unfold Broadcast
  rcases h : broadcastFirst msgs memo envF envR s with ⟨res, st, tr⟩
  cases res <;> simp [wrapResult]

/-- A call whose first attempt reaches the node and is accepted: the result
is the response, the stored sequence advances by one (uint64 increment), and
exactly one submission occurs. -/
theorem Broadcast_first_success (Msg : Type) (msgs : List Msg) (memo : String)
    (envF envR : AttemptEnv) (s : BState)
    (hr : ReachesSend envF s.gas) (hc : envF.resp.code = 0) :
    Broadcast msgs memo envF envR s =
      ⟨.ok envF.resp, { s with sequence := (s.sequence + 1) % uint64Mod },
        gasPre s.gas ++ [.build, .sign, .encode, .send s.sequence]⟩ := by
  rw [Broadcast_eq, broadcastFirst_gas Msg msgs memo envF envR s hr.1,
    broadcastFirstAfterGas_ok Msg msgs memo envF envR s (gasPre s.gas) hr hc]
  simp [wrapResult]

/-! ### Submission-count bounds -/

def outTrace : SendOutcome → List Step
  | .failed _ tr => tr
  | .sent _ tr => tr

theorem sends_append (a b : List Step) : sends (a ++ b) = sends a ++ sends b := by
  simp [sends]

theorem sends_nil : sends [] = [] := rfl

theorem sends_calcGas (tr : List Step) : sends (Step.calcGas :: tr) = sends tr := rfl

theorem sends_gasPre (g : Nat) : sends (gasPre g) = [] := by
  unfold gasPre; split <;> rfl

theorem outTrace_sends_le (e : AttemptEnv) (q : Nat) :
    (sends (outTrace (buildSignEncodeSend e q))).length ≤ 1 := by
  unfold buildSignEncodeSend outTrace
  cases e.buildErr <;> cases e.signErr <;> cases e.encodeErr <;> cases e.sendErr <;>
    simp [sends]

theorem retryAfterGas_trace (e : AttemptEnv) (s : BState) (pre : List Step) :
    (broadcastRetryAfterGas e s pre).trace =
      pre ++ outTrace (buildSignEncodeSend e s.sequence) := by
  unfold broadcastRetryAfterGas outTrace
  rcases h : buildSignEncodeSend e s.sequence with ⟨er, tr⟩ | ⟨resp, tr⟩
  · rfl
  · dsimp only
    by_cases h0 : resp.code ≠ 0
    · rw [if_pos h0]
      by_cases h19 : resp.code = errTxInMempoolCacheCode
      · rw [if_pos h19]
      · rw [if_neg h19]
    · rw [if_neg h0]

theorem retry_sends_le (Msg : Type) (msgs : List Msg) (memo : String)
    (env : AttemptEnv) (s : BState) :
    (sends (broadcastRetry msgs memo env s).trace).length ≤ 1 := by
  unfold broadcastRetry
  by_cases hg : s.gas = 0
  · rw [if_pos hg]
    cases hc : env.calcGas with
    | err m => dsimp only; decide
    | ok g =>
      rw [retryAfterGas_trace, sends_append]
      have h1 := outTrace_sends_le env s.sequence
      have h2 : sends [Step.calcGas] = [] := rfl
      rw [h2]
      simpa using h1
  · rw [if_neg hg, retryAfterGas_trace, sends_append]
    have h1 := outTrace_sends_le env s.sequence
    simpa [sends_nil] using h1

theorem firstAfterGas_sends_le (Msg : Type) (msgs : List Msg) (memo : String)
    (envF envR : AttemptEnv) (s : BState) (pre : List Step) :
    (sends (broadcastFirstAfterGas msgs memo envF envR s pre).trace).length ≤
      (sends pre).length + 2 := by
  unfold broadcastFirstAfterGas
  rcases h : buildSignEncodeSend envF s.sequence with ⟨er, tr⟩ | ⟨resp, tr⟩
  · show (sends (pre ++ tr)).length ≤ (sends pre).length + 2
    have htr : (sends tr).length ≤ 1 := by
      have := outTrace_sends_le envF s.sequence
      rw [h] at this; exact this
    rw [sends_append, List.length_append]
    omega
  · have htr : (sends tr).length ≤ 1 := by
      have := outTrace_sends_le envF s.sequence
      rw [h] at this; exact this
    dsimp only
    by_cases h0 : resp.code ≠ 0
    · rw [if_pos h0]
      by_cases h19 : resp.code = errTxInMempoolCacheCode
      · rw [if_pos h19]
        show (sends (pre ++ tr)).length ≤ (sends pre).length + 2
        rw [sends_append, List.length_append]
        omega
      · rw [if_neg h19]
        by_cases hx : getNextSequence resp.rawLog ≠ 0
        · rw [if_pos hx]
          show (sends ((pre ++ tr) ++
            (broadcastRetry msgs memo envR
              { s with sequence := getNextSequence resp.rawLog }).trace)).length ≤
              (sends pre).length + 2
          have h2 := retry_sends_le Msg msgs memo envR
            { s with sequence := getNextSequence resp.rawLog }
          rw [sends_append, sends_append, List.length_append, List.length_append]
          omega
        · rw [if_neg hx]
          show (sends ((pre ++ tr) ++ (broadcastRetry msgs memo envR s).trace)).length ≤
              (sends pre).length + 2
          have h2 := retry_sends_le Msg msgs memo envR s
          rw [sends_append, sends_append, List.length_append, List.length_append]
          omega
    · rw [if_neg h0]
      show (sends (pre ++ tr)).length ≤ (sends pre).length + 2
      rw [sends_append, List.length_append]
      omega

theorem broadcast_sends_le (Msg : Type) (msgs : List Msg) (memo : String)
    (envF envR : AttemptEnv) (s : BState) :
    (sends (Broadcast msgs memo envF envR s).trace).length ≤ 2 := by
  rw [Broadcast_eq]
  show (sends (broadcastFirst msgs memo envF envR s).trace).length ≤ 2
  unfold broadcastFirst
  by_cases hg : s.gas = 0
  · rw [if_pos hg]
    cases hc : envF.calcGas with
    | err m =>
      dsimp only
      by_cases hx : getNextSequence m ≠ 0
      · rw [if_pos hx]
        show (sends (Step.calcGas ::
          (broadcastRetry msgs memo envR { s with sequence := getNextSequence m }).trace)).length ≤ 2
        rw [sends_calcGas]
        have h2 := retry_sends_le Msg msgs memo envR { s with sequence := getNextSequence m }
        omega
      · rw [if_neg hx]
        show (sends (Step.calcGas :: (broadcastRetry msgs memo envR s).trace)).length ≤ 2
        rw [sends_calcGas]
        have h2 := retry_sends_le Msg msgs memo envR s
        omega
    | ok g =>
      have h1 := firstAfterGas_sends_le Msg msgs memo envF envR s [Step.calcGas]
      have hp : sends [Step.calcGas] = [] := rfl
      rw [hp] at h1
      simpa using h1
  · rw [if_neg hg]
    have h1 := firstAfterGas_sends_le Msg msgs memo envF envR s []
    rw [sends_nil] at h1
    simpa using h1

/-! ### Stage-failure path lemmas -/

theorem bses_build (e : AttemptEnv) (q : Nat) (er : String) (h : e.buildErr = some er) :
    buildSignEncodeSend e q = .failed (.buildTx er) [.build] := by
  simp [buildSignEncodeSend, h]

theorem bses_sign (e : AttemptEnv) (q : Nat) (er : String)
    (h1 : e.buildErr = none) (h2 : e.signErr = some er) :
    buildSignEncodeSend e q = .failed (.signTx er) [.build, .sign] := by
  simp [buildSignEncodeSend, h1, h2]

theorem bses_encode (e : AttemptEnv) (q : Nat) (er : String)
    (h1 : e.buildErr = none) (h2 : e.signErr = none) (h3 : e.encodeErr = some er) :
    buildSignEncodeSend e q = .failed (.encodeTx er) [.build, .sign, .encode] := by
  simp [buildSignEncodeSend, h1, h2, h3]

theorem bses_sendFail (e : AttemptEnv) (q : Nat) (er : String)
    (h1 : e.buildErr = none) (h2 : e.signErr = none) (h3 : e.encodeErr = none)
    (h4 : e.sendErr = some er) :
    buildSignEncodeSend e q = .failed (.broadcastTx er) [.build, .sign, .encode, .send q] := by
  simp [buildSignEncodeSend, h1, h2, h3, h4]

theorem firstAfterGas_failed (Msg : Type) (msgs : List Msg) (memo : String)
    (envF envR : AttemptEnv) (s : BState) (pre : List Step)
    (er : BroadcastError) (tr : List Step)
    (h : buildSignEncodeSend envF s.sequence = .failed er tr) :
    broadcastFirstAfterGas msgs memo envF envR s pre = ⟨.error er, s, pre ++ tr⟩ := by
  unfold broadcastFirstAfterGas
  rw [h]

theorem retryAfterGas_failed (e : AttemptEnv) (s : BState) (pre : List Step)
    (er : BroadcastError) (tr : List Step)
    (h : buildSignEncodeSend e s.sequence = .failed er tr) :
    broadcastRetryAfterGas e s pre = ⟨.error er, s, pre ++ tr⟩ := by
  unfold broadcastRetryAfterGas
  rw [h]

/-! ### Shared concrete fixtures for witnesses and counterexamples -/

def respOk : TxResponse := ⟨0, "", ""⟩

/-- All collaborators succeed, the node accepts. -/
def envOk : AttemptEnv := ⟨.ok 50000, none, none, none, none, respOk⟩

/-- The node rejects with code 5 and a raw log carrying no mismatch pattern. -/
def envBad5 : AttemptEnv := { envOk with resp := ⟨5, "boom", "resp5"⟩ }

/-- The node rejects with code 7 and a raw log carrying no mismatch pattern. -/
def envBad7 : AttemptEnv := { envOk with resp := ⟨7, "bam", "resp7"⟩ }

/-- The node reports the mempool-cache code 19. -/
def envMem : AttemptEnv := { envOk with resp := ⟨19, "dup", "resp19"⟩ }

/-! ### Claim theorems -/

/-- Claim C10: `BroadcastMsg msg memo` returns exactly the result, state and
trace of `Broadcast [msg] memo`; the Go method is the literal delegation
`return b.Broadcast([]sdk.Msg{msg}, memo)`. -/
theorem c10_broadcast_msg_delegates (Msg : Type) (msg : Msg) (memo : String)
    (envF envR : AttemptEnv) (s : BState) :
    BroadcastMsg msg memo envF envR s = Broadcast [msg] memo envF envR s := rfl

/-- Claim C8: `refreshSequence` fails (with the wrapped `EnsureExists` error
and an unchanged state) when the account does not exist on-chain, and
otherwise, when the account query answers, overwrites the local account
number and sequence with the queried values whatever the previous local
state was. -/
theorem c8_refresh_sequence (env : AccountEnv) (s : BState) :
    (∀ e, env.ensureExists = some e →
        refreshSequence env s = (.error (.ensureExists e), s))
    ∧ (∀ n q, env.ensureExists = none → env.accountNumberSequence = .ok (n, q) →
        refreshSequence env s = (.ok (), ⟨n, q, s.gas⟩)) := by
  constructor
  · intro e he
    simp [refreshSequence, he]
  · intro n q he hq
    simp only [refreshSequence, he, hq]

theorem c8_witness :
    refreshSequence ⟨none, .ok (3, 9)⟩ ⟨11, 7, 21⟩ = (.ok (), ⟨3, 9, 21⟩) :=
  (c8_refresh_sequence ⟨none, .ok (3, 9)⟩ ⟨11, 7, 21⟩).2 3 9 rfl rfl

/-- Claim C6: a node response carrying the mempool-cache code makes the call
return the distinguished `ErrTxInMempoolCache` sentinel (wrapped once by
`Broadcast`, still identified by the `errors.Is`-style check), perform no
retry (the trace holds exactly one submission), and leave the broadcaster
state unchanged; the mempool branch of the retry attempt likewise returns
the sentinel and leaves the state unchanged. -/
theorem c6_mempool_sentinel (Msg : Type) (msgs : List Msg) (memo : String)
    (envF envR : AttemptEnv) (s : BState)
    (hr : ReachesSend envF s.gas) (hc : envF.resp.code = errTxInMempoolCacheCode) :
    Broadcast msgs memo envF envR s =
      ⟨.error (.wrapped .txInMempoolCache), s,
        gasPre s.gas ++ [.build, .sign, .encode, .send s.sequence]⟩
    ∧ sends (Broadcast msgs memo envF envR s).trace = [s.sequence]
    ∧ CallError.isTxInMempoolCache (.wrapped .txInMempoolCache) = true
    ∧ (∀ s' : BState, ReachesSend envR s'.gas → envR.resp.code = errTxInMempoolCacheCode →
        broadcastRetry msgs memo envR s' =
          ⟨.error .txInMempoolCache, s',
            gasPre s'.gas ++ [.build, .sign, .encode, .send s'.sequence]⟩) := by
  have hmain : Broadcast msgs memo envF envR s =
      ⟨.error (.wrapped .txInMempoolCache), s,
        gasPre s.gas ++ [.build, .sign, .encode, .send s.sequence]⟩ := by
    rw [Broadcast_eq, broadcastFirst_gas Msg msgs memo envF envR s hr.1,
      broadcastFirstAfterGas_mempool Msg msgs memo envF envR s (gasPre s.gas) hr hc]
    rfl
  refine ⟨hmain, ?_, rfl, ?_⟩
  · rw [hmain]
    show sends (gasPre s.gas ++ [.build, .sign, .encode, .send s.sequence]) = [s.sequence]
    rw [sends_append, sends_gasPre]
    rfl
  · intro s' hr' hc'
    rw [broadcastRetry_gas Msg msgs memo envR s' hr'.1,
      broadcastRetryAfterGas_mempool envR s' (gasPre s'.gas) hr' hc']

theorem c6_witness :
    Broadcast ([] : List Unit) "" envMem envOk ⟨7, 5, 21⟩ =
      ⟨.error (.wrapped .txInMempoolCache), ⟨7, 5, 21⟩,
        gasPre 21 ++ [.build, .sign, .encode, .send 5]⟩ :=
  (c6_mempool_sentinel Unit [] "" envMem envOk ⟨7, 5, 21⟩ (by decide) rfl).1

/-- Claim C7: a failure while building, signing or encoding the transaction,
or a transport failure while submitting it, is fatal for the call: the error
comes back wrapped with the failing stage's description, no retry happens
(the trace ends at the failing stage; a transport failure leaves exactly the
one submission already made), and the broadcaster state — in particular the
tracked sequence — is unchanged.  The same holds inside the retry attempt. -/
theorem c7_fatal_stage_errors (Msg : Type) (msgs : List Msg) (memo : String)
    (envF envR : AttemptEnv) (s : BState)
    (hgas : s.gas = 0 → envF.calcGas.isOk = true) :
    (∀ er, envF.buildErr = some er →
        Broadcast msgs memo envF envR s =
          ⟨.error (.wrapped (.buildTx er)), s, gasPre s.gas ++ [.build]⟩
        ∧ CallError.render (.wrapped (.buildTx er)) =
            "failed to broadcast: failed to build tx: " ++ er)
    ∧ (∀ er, envF.buildErr = none → envF.signErr = some er →
        Broadcast msgs memo envF envR s =
          ⟨.error (.wrapped (.signTx er)), s, gasPre s.gas ++ [.build, .sign]⟩
        ∧ CallError.render (.wrapped (.signTx er)) =
            "failed to broadcast: failed to sign tx: " ++ er)
    ∧ (∀ er, envF.buildErr = none → envF.signErr = none → envF.encodeErr = some er →
        Broadcast msgs memo envF envR s =
          ⟨.error (.wrapped (.encodeTx er)), s, gasPre s.gas ++ [.build, .sign, .encode]⟩
        ∧ CallError.render (.wrapped (.encodeTx er)) =
            "failed to broadcast: failed to encode tx: " ++ er)
    ∧ (∀ er, envF.buildErr = none → envF.signErr = none → envF.encodeErr = none →
        envF.sendErr = some er →
        Broadcast msgs memo envF envR s =
          ⟨.error (.wrapped (.broadcastTx er)), s,
            gasPre s.gas ++ [.build, .sign, .encode, .send s.sequence]⟩
        ∧ CallError.render (.wrapped (.broadcastTx er)) =
            "failed to broadcast: failed to broadcast tx: " ++ er)
    ∧ (∀ (s₂ : BState) er, (s₂.gas = 0 → envR.calcGas.isOk = true) →
        (envR.buildErr = some er →
          broadcastRetry msgs memo envR s₂ =
            ⟨.error (.buildTx er), s₂, gasPre s₂.gas ++ [.build]⟩)
        ∧ (envR.buildErr = none → envR.signErr = some er →
          broadcastRetry msgs memo envR s₂ =
            ⟨.error (.signTx er), s₂, gasPre s₂.gas ++ [.build, .sign]⟩)
        ∧ (envR.buildErr = none → envR.signErr = none → envR.encodeErr = some er →
          broadcastRetry msgs memo envR s₂ =
            ⟨.error (.encodeTx er), s₂, gasPre s₂.gas ++ [.build, .sign, .encode]⟩)
        ∧ (envR.buildErr = none → envR.signErr = none → envR.encodeErr = none →
          envR.sendErr = some er →
          broadcastRetry msgs memo envR s₂ =
            ⟨.error (.broadcastTx er), s₂,
              gasPre s₂.gas ++ [.build, .sign, .encode, .send s₂.sequence]⟩)) := by
  refine ⟨?_, ?_, ?_, ?_, ?_⟩
  · intro er h
    refine ⟨?_, rfl⟩
    rw [Broadcast_eq, broadcastFirst_gas Msg msgs memo envF envR s hgas,
      firstAfterGas_failed Msg msgs memo envF envR s (gasPre s.gas) _ _
        (bses_build envF s.sequence er h)]
    rfl
  · intro er h1 h2
    refine ⟨?_, rfl⟩
    rw [Broadcast_eq, broadcastFirst_gas Msg msgs memo envF envR s hgas,
      firstAfterGas_failed Msg msgs memo envF envR s (gasPre s.gas) _ _
        (bses_sign envF s.sequence er h1 h2)]
    rfl
  · intro er h1 h2 h3
    refine ⟨?_, rfl⟩
    rw [Broadcast_eq, broadcastFirst_gas Msg msgs memo envF envR s hgas,
      firstAfterGas_failed Msg msgs memo envF envR s (gasPre s.gas) _ _
        (bses_encode envF s.sequence er h1 h2 h3)]
    rfl
  · intro er h1 h2 h3 h4
    refine ⟨?_, rfl⟩
    rw [Broadcast_eq, broadcastFirst_gas Msg msgs memo envF envR s hgas,
      firstAfterGas_failed Msg msgs memo envF envR s (gasPre s.gas) _ _
        (bses_sendFail envF s.sequence er h1 h2 h3 h4)]
    rfl
  · intro s₂ er hgas₂
    refine ⟨?_, ?_, ?_, ?_⟩
    · intro h
      rw [broadcastRetry_gas Msg msgs memo envR s₂ hgas₂,
        retryAfterGas_failed envR s₂ (gasPre s₂.gas) _ _ (bses_build envR s₂.sequence er h)]
    · intro h1 h2
      rw [broadcastRetry_gas Msg msgs memo envR s₂ hgas₂,
        retryAfterGas_failed envR s₂ (gasPre s₂.gas) _ _ (bses_sign envR s₂.sequence er h1 h2)]
    · intro h1 h2 h3
      rw [broadcastRetry_gas Msg msgs memo envR s₂ hgas₂,
        retryAfterGas_failed envR s₂ (gasPre s₂.gas) _ _
          (bses_encode envR s₂.sequence er h1 h2 h3)]
    · intro h1 h2 h3 h4
      rw [broadcastRetry_gas Msg msgs memo envR s₂ hgas₂,
        retryAfterGas_failed envR s₂ (gasPre s₂.gas) _ _
          (bses_sendFail envR s₂.sequence er h1 h2 h3 h4)]

def envSignFail : AttemptEnv := { envOk with signErr := some ("key locked") }

theorem c7_witness :
    Broadcast ([] : List Unit) "" envSignFail envOk ⟨7, 5, 21⟩ =
      ⟨.error (.wrapped (.signTx ("key locked"))), ⟨7, 5, 21⟩, gasPre 21 ++ [.build, .sign]⟩ :=
  ((c7_fatal_stage_errors Unit [] "" envSignFail envOk ⟨7, 5, 21⟩ (by decide)).2.1
    ("key locked") rfl rfl).1

/-- Claim C2: at most one automatic retry per external call — every call
performs at most two submissions — and when both the first attempt's and the
retried attempt's responses carry a non-zero, non-mempool code, the call
returns the generic broadcast failure built from the retry's response after
exactly two submissions. -/
theorem c2_at_most_one_retry :
    (∀ (Msg : Type) (msgs : List Msg) (memo : String) (envF envR : AttemptEnv) (s : BState),
       (sends (Broadcast msgs memo envF envR s).trace).length ≤ 2)
    ∧ (∀ (Msg : Type) (msgs : List Msg) (memo : String) (envF envR : AttemptEnv) (s : BState),
       ReachesSend envF s.gas → envF.resp.code ≠ 0 →
       envF.resp.code ≠ errTxInMempoolCacheCode →
       ReachesSend envR s.gas → envR.resp.code ≠ 0 →
       envR.resp.code ≠ errTxInMempoolCacheCode →
       (Broadcast msgs memo envF envR s).result =
         .error (.wrapped (.broadcastFailed envR.resp.respString))
       ∧ (sends (Broadcast msgs memo envF envR s).trace).length = 2) := by
  refine ⟨fun Msg msgs memo envF envR s => broadcast_sends_le Msg msgs memo envF envR s,
    fun Msg msgs memo envF envR s hrF h0F h19F hrR h0R h19R => ?_⟩
  rw [Broadcast_eq, broadcastFirst_gas Msg msgs memo envF envR s hrF.1,
    broadcastFirstAfterGas_conflict Msg msgs memo envF envR s (gasPre s.gas) hrF h0F h19F]
  set s1 : BState := if getNextSequence envF.resp.rawLog ≠ 0 then
    { s with sequence := getNextSequence envF.resp.rawLog } else s with hs1
  have hgas1 : s1.gas = s.gas := by
    rw [hs1]; split <;> rfl
  have hrR1 : ReachesSend envR s1.gas := by rw [hgas1]; exact hrR
  have hretry : broadcastRetry msgs memo envR s1 =
      ⟨.error (.broadcastFailed envR.resp.respString), s1,
        gasPre s1.gas ++ [.build, .sign, .encode, .send s1.sequence]⟩ := by
    rw [broadcastRetry_gas Msg msgs memo envR s1 hrR1.1,
      broadcastRetryAfterGas_failed envR s1 (gasPre s1.gas) hrR1 h0R h19R]
  rw [hretry]
  constructor
  · rfl
  · show (sends ((gasPre s.gas ++ [.build, .sign, .encode, .send s.sequence]) ++
      (gasPre s1.gas ++ [.build, .sign, .encode, .send s1.sequence]))).length = 2
    rw [sends_append, sends_append, sends_append, sends_gasPre, sends_gasPre]
    rfl

theorem c2_witness :
    (Broadcast ([] : List Unit) "" envBad5 envBad7 ⟨7, 5, 21⟩).result =
      .error (.wrapped (.broadcastFailed ("resp7")))
    ∧ (sends (Broadcast ([] : List Unit) "" envBad5 envBad7 ⟨7, 5, 21⟩).trace).length = 2 :=
  c2_at_most_one_retry.2 Unit [] "" envBad5 envBad7 ⟨7, 5, 21⟩
    (by decide) (by decide) (by decide) (by decide) (by decide) (by decide)

/-! ### Soundness of the pattern matcher: a match implies the substring

`patHere l` decides whether `l` starts with the substring the claim speaks
about — `account sequence mismatch, expected <N>, got <M>:` with `N`, `M`
nonempty digit runs — and `containsPat` whether it occurs anywhere.  (The
digit runs of any such occurrence are maximal ones: a digit run that is
followed by `, got ` respectively `:` cannot be extended, so checking the
maximal run is exact.) -/

def patHere (l : List Char) : Bool :=
  match stripLit expectedLit l with
  | none => false
  | some r1 =>
    if (splitDigits r1).1 = [] then false
    else
      match stripLit gotLit (splitDigits r1).2 with
      | none => false
      | some r3 =>
        if (splitDigits r3).1 = [] then false
        else
          match stripLit [':'] (splitDigits r3).2 with
          | none => false
          | some _ => true

def containsPat : List Char → Bool
  | [] => false
  | c :: rest => patHere (c :: rest) || containsPat rest

/-- The claim's side condition on an input string: it contains a substring
`account sequence mismatch, expected <N>, got <M>:`. -/
def hasMismatchPattern (m : String) : Bool := containsPat m.data

theorem patTail_patHere (l : List Char) (h : ∃ d, patTail l = some d) :
    patHere l = true := by
  obtain ⟨d, h⟩ := h
  unfold patTail at h
  unfold patHere
  cases h1 : stripLit expectedLit l with
  | none => rw [h1] at h; simp at h
  | some r1 =>
    rw [h1] at h
    dsimp only at h ⊢
    by_cases hd1 : (splitDigits r1).1 = []
    · rw [if_pos hd1] at h; simp at h
    · rw [if_neg hd1] at h
      rw [if_neg hd1]
      cases h2 : stripLit gotLit (splitDigits r1).2 with
      | none => rw [h2] at h; simp at h
      | some r3 =>
        rw [h2] at h
        dsimp only at h ⊢
        by_cases hd2 : (splitDigits r3).1 = []
        · rw [if_pos hd2] at h; simp at h
        · rw [if_neg hd2] at h
          rw [if_neg hd2]
          cases h3 : stripLit [':'] (splitDigits r3).2 with
          | none => rw [h3] at h; simp at h
          | some r4 => rfl

theorem patHere_containsPat (l : List Char) (h : patHere l = true) :
    containsPat l = true := by
  cases l with
  | nil => exact absurd h (by decide)
  | cons c rest =>
    unfold containsPat
    rw [h]
    rfl

theorem dotPlus_containsPat (l : List Char)
    (h : ∃ d, dotPlusThen patTail l = some d) : containsPat l = true := by
  induction l with
  | nil =>
    obtain ⟨d, h⟩ := h
    exact absurd h (by simp [dotPlusThen])
  | cons c rest ih =>
    obtain ⟨d, h⟩ := h
    unfold dotPlusThen at h
    by_cases hnl : c = '\n'
    · rw [if_pos hnl] at h; simp at h
    · rw [if_neg hnl] at h
      cases h2 : dotPlusThen patTail rest with
      | some v =>
        have := ih ⟨v, h2⟩
        unfold containsPat
        rw [this]
        simp
      | none =>
        rw [h2] at h
        dsimp only at h
        have hp := patTail_patHere rest ⟨d, h⟩
        have := patHere_containsPat rest hp
        unfold containsPat
        rw [this]
        simp

theorem regexScan_containsPat (l : List Char)
    (h : ∃ d, regexScan l = some d) : containsPat l = true := by
  induction l with
  | nil =>
    obtain ⟨d, h⟩ := h
    exact absurd h (by simp [regexScan])
  | cons c rest ih =>
    obtain ⟨d, h⟩ := h
    unfold regexScan at h
    cases h2 : dotPlusThen patTail (c :: rest) with
    | some v => exact dotPlus_containsPat (c :: rest) ⟨v, h2⟩
    | none =>
      rw [h2] at h
      dsimp only at h
      have := ih ⟨d, h⟩
      unfold containsPat
      rw [this]
      simp

/-! ### Claims C4, C1, C3, C5 -/

/-- Claim C4 (counterexample): on the claim's exact input string the
extraction returns 0, not 42 — the regular expression's leading `.+`
requires at least one character before `account`, and the string begins
with `account`. -/
theorem c4_counterexample :
    getNextSequence ("account sequence mismatch, expected 42, got 40: ...") = 0
    ∧ getNextSequence ("account sequence mismatch, expected 42, got 40: ...") ≠ 42 :=
  ⟨by decide, by decide⟩

/-- Claim C4 (amended): the exact claim string extracts 0, because the
pattern demands at least one character before the phrase; a string carrying
the phrase with surrounding context extracts 42; and any input containing no
`account sequence mismatch, expected <N>, got <M>:` substring extracts 0. -/
theorem c4_extraction :
    getNextSequence ("account sequence mismatch, expected 42, got 40: ...") = 0
    ∧ getNextSequence
        ("rpc error: account sequence mismatch, expected 42, got 40: incorrect account sequence")
        = 42
    ∧ (∀ m : String, hasMismatchPattern m = false → getNextSequence m = 0) := by
  refine ⟨by decide, by decide, ?_⟩
  intro m hm
  unfold getNextSequence
  cases hscan : regexScan m.data with
  | none => rfl
  | some d =>
    have hc := regexScan_containsPat m.data ⟨d, hscan⟩
    unfold hasMismatchPattern at hm
    rw [hc] at hm
    exact absurd hm (by simp)

theorem c4_witness : getNextSequence ("hello") = 0 :=
  c4_extraction.2.2 ("hello") (by decide)

/-- Submissions of one retry attempt: none, or exactly one carrying the
attempt state's sequence. -/
theorem outTrace_sends_cases (e : AttemptEnv) (q : Nat) :
    sends (outTrace (buildSignEncodeSend e q)) = []
    ∨ sends (outTrace (buildSignEncodeSend e q)) = [q] := by
  unfold buildSignEncodeSend outTrace
  cases e.buildErr <;> cases e.signErr <;> cases e.encodeErr <;> cases e.sendErr <;>
    simp [sends]

theorem retry_sends_cases (Msg : Type) (msgs : List Msg) (memo : String)
    (env : AttemptEnv) (s : BState) :
    sends (broadcastRetry msgs memo env s).trace = []
    ∨ sends (broadcastRetry msgs memo env s).trace = [s.sequence] := by
  unfold broadcastRetry
  by_cases hg : s.gas = 0
  · rw [if_pos hg]
    cases hc : env.calcGas with
    | err m => exact Or.inl rfl
    | ok g =>
      rw [retryAfterGas_trace, sends_append]
      have h2 : sends [Step.calcGas] = [] := rfl
      rw [h2]
      simpa using outTrace_sends_cases env s.sequence
  · rw [if_neg hg, retryAfterGas_trace, sends_append, sends_nil]
    simpa using outTrace_sends_cases env s.sequence

/-- The states the broadcaster passes through under a list of sequential
`Broadcast` calls, each with its own pair of attempt environments. -/
def runSeq {Msg : Type} (msgs : List Msg) (memo : String) :
    List (AttemptEnv × AttemptEnv) → BState → BState
  | [], s => s
  | (eF, eR) :: rest, s => runSeq msgs memo rest (Broadcast msgs memo eF eR s).state

/-- An estimation-failure text encoding expected sequence 42. -/
def estFailText : String :=
  "rpc error: account sequence mismatch, expected 42, got 40: incorrect account sequence"

/-- Gas estimation fails with an error text encoding expected sequence 42. -/
def envEstFail : AttemptEnv := { envOk with calcGas := .err estFailText }

/-- Claim C1 (counterexample): two concrete runs in which every node
response code is 0, yet the sequence does not advance by the number of
calls.  (a) With gas estimation configured, the first attempt's estimation
fails with a mismatch text, the code adopts the extracted sequence 42 and
the retried submission is accepted: one successful call moves the local
sequence from 5 to 43, not 6.  (b) At sequence 2^64 - 1 an accepted
submission wraps the uint64 increment to 0, not 2^64. -/
theorem c1_counterexample :
    ((Broadcast ([] : List Unit) "" envEstFail envOk ⟨0, 5, 0⟩).result = .ok respOk
      ∧ (Broadcast ([] : List Unit) "" envEstFail envOk ⟨0, 5, 0⟩).state.sequence = 43
      ∧ (43 : Nat) ≠ 5 + 1)
    ∧ ((Broadcast ([] : List Unit) "" envOk envOk ⟨0, 2 ^ 64 - 1, 21⟩).result = .ok respOk
      ∧ (Broadcast ([] : List Unit) "" envOk envOk ⟨0, 2 ^ 64 - 1, 21⟩).state.sequence = 0
      ∧ (0 : Nat) ≠ (2 ^ 64 - 1) + 1) :=
  ⟨⟨by decide, by decide, by decide⟩, ⟨by decide, by decide, by decide⟩⟩

/-- Claim C1 (amended): a call whose first attempt reaches the node and is
accepted — no internal retry — returns the response and advances the local
sequence by exactly 1, provided the uint64 increment does not wrap; N such
sequential calls advance the sequence by exactly N provided the starting
sequence plus N stays below 2^64. -/
theorem c1_sequence_additivity :
    (∀ (Msg : Type) (msgs : List Msg) (memo : String) (envF envR : AttemptEnv) (s : BState),
       FirstAttemptClean envF s.gas → s.sequence + 1 < 2 ^ 64 →
       (Broadcast msgs memo envF envR s).result = .ok envF.resp
       ∧ (Broadcast msgs memo envF envR s).state.sequence = s.sequence + 1)
    ∧ (∀ (Msg : Type) (msgs : List Msg) (memo : String)
        (envs : List (AttemptEnv × AttemptEnv)) (s : BState),
       (∀ p ∈ envs, FirstAttemptClean p.1 s.gas) → s.sequence + envs.length < 2 ^ 64 →
       (runSeq msgs memo envs s).sequence = s.sequence + envs.length) := by
  have single : ∀ (Msg : Type) (msgs : List Msg) (memo : String)
      (envF envR : AttemptEnv) (s : BState),
      FirstAttemptClean envF s.gas → s.sequence + 1 < 2 ^ 64 →
      Broadcast msgs memo envF envR s =
        ⟨.ok envF.resp, { s with sequence := s.sequence + 1 },
          gasPre s.gas ++ [.build, .sign, .encode, .send s.sequence]⟩ := by
    intro Msg msgs memo envF envR s hc hlt
    rw [Broadcast_first_success Msg msgs memo envF envR s hc.1 hc.2]
    have hmod : (s.sequence + 1) % uint64Mod = s.sequence + 1 := by
      apply Nat.mod_eq_of_lt
      unfold uint64Mod
      exact hlt
    rw [hmod]
  constructor
  · intro Msg msgs memo envF envR s hc hlt
    rw [single Msg msgs memo envF envR s hc hlt]
    exact ⟨rfl, rfl⟩
  · intro Msg msgs memo envs
    induction envs with
    | nil =>
      intro s h hlt
      simp [runSeq]
    | cons p rest ih =>
      intro s h hlt
      obtain ⟨eF, eR⟩ := p
      have hc := h (eF, eR) (List.mem_cons_self _ _)
      have hlen : s.sequence + (rest.length + 1) < 2 ^ 64 := by
        simpa [List.length_cons] using hlt
      have hfull := single Msg msgs memo eF eR s hc (by omega)
      show (runSeq msgs memo rest (Broadcast msgs memo eF eR s).state).sequence = _
      rw [hfull]
      have hrest := ih { s with sequence := s.sequence + 1 }
        (fun q hq => h q (List.mem_cons_of_mem _ hq))
        (by simpa using by omega)
      rw [hrest]
      show s.sequence + 1 + rest.length = s.sequence + ((eF, eR) :: rest).length
      rw [List.length_cons]
      omega

theorem c1_witness :
    (runSeq ([] : List Unit) "" [(envOk, envOk), (envOk, envOk)] ⟨7, 5, 21⟩).sequence = 5 + 2 :=
  c1_sequence_additivity.2 Unit [] "" [(envOk, envOk), (envOk, envOk)] ⟨7, 5, 21⟩
    (by decide) (by decide)

/-- The node rejects with code 32 and a raw log whose expected sequence is
the maximum uint64, clamped by the extraction. -/
def envBadMax : AttemptEnv :=
  { envOk with resp :=
      ⟨32, "x account sequence mismatch, expected 18446744073709551615, got 5: y", "resp32"⟩ }

/-- Claim C3 (counterexample): the extracted corrected sequence is
S = 2^64 - 1 > 0 and the retry submits exactly S and succeeds, but the
sequence after the call is the wrapped uint64 increment 0, not S + 1. -/
theorem c3_counterexample :
    getNextSequence ("x account sequence mismatch, expected 18446744073709551615, got 5: y")
      = 2 ^ 64 - 1
    ∧ sends (Broadcast ([] : List Unit) "" envBadMax envOk ⟨0, 5, 21⟩).trace = [5, 2 ^ 64 - 1]
    ∧ (Broadcast ([] : List Unit) "" envBadMax envOk ⟨0, 5, 21⟩).result = .ok respOk
    ∧ (Broadcast ([] : List Unit) "" envBadMax envOk ⟨0, 5, 21⟩).state.sequence = 0
    ∧ (0 : Nat) ≠ (2 ^ 64 - 1) + 1 :=
  ⟨by decide, by decide, by decide, by decide, by decide⟩

/-- Claim C3 (amended): when the first attempt's response carries a
non-zero, non-mempool code whose raw log encodes an expected sequence S > 0,
every submission of the retried attempt uses exactly S, and when the retry
reaches the node and is accepted the final sequence is (S + 1) mod 2^64 —
equal to S + 1 whenever S < 2^64 - 1 (extraction clamps S to the maximum
uint64, where the increment wraps). -/
theorem c3_retry_uses_extracted_sequence
    (Msg : Type) (msgs : List Msg) (memo : String) (envF envR : AttemptEnv) (s : BState)
    (hr : ReachesSend envF s.gas) (h0 : envF.resp.code ≠ 0)
    (h19 : envF.resp.code ≠ errTxInMempoolCacheCode)
    (hS : getNextSequence envF.resp.rawLog ≠ 0) :
    (∃ rest, sends (Broadcast msgs memo envF envR s).trace = s.sequence :: rest
      ∧ (rest = [] ∨ rest = [getNextSequence envF.resp.rawLog]))
    ∧ (ReachesSend envR s.gas → envR.resp.code = 0 →
        sends (Broadcast msgs memo envF envR s).trace =
          [s.sequence, getNextSequence envF.resp.rawLog]
        ∧ (Broadcast msgs memo envF envR s).result = .ok envR.resp
        ∧ (Broadcast msgs memo envF envR s).state.sequence =
            (getNextSequence envF.resp.rawLog + 1) % uint64Mod
        ∧ (getNextSequence envF.resp.rawLog < uint64Max →
            (Broadcast msgs memo envF envR s).state.sequence =
              getNextSequence envF.resp.rawLog + 1)) := by
  have hbf : broadcastFirst msgs memo envF envR s =
      ⟨(broadcastRetry msgs memo envR
          { s with sequence := getNextSequence envF.resp.rawLog }).result,
        (broadcastRetry msgs memo envR
          { s with sequence := getNextSequence envF.resp.rawLog }).state,
        (gasPre s.gas ++ [.build, .sign, .encode, .send s.sequence]) ++
          (broadcastRetry msgs memo envR
            { s with sequence := getNextSequence envF.resp.rawLog }).trace⟩ := by
    rw [broadcastFirst_gas Msg msgs memo envF envR s hr.1,
      broadcastFirstAfterGas_conflict Msg msgs memo envF envR s (gasPre s.gas) hr h0 h19,
      if_pos hS]
  have htraceAll : (Broadcast msgs memo envF envR s).trace =
      (gasPre s.gas ++ [.build, .sign, .encode, .send s.sequence]) ++
        (broadcastRetry msgs memo envR
          { s with sequence := getNextSequence envF.resp.rawLog }).trace := by
    rw [Broadcast_eq, hbf]
  constructor
  · refine ⟨sends (broadcastRetry msgs memo envR
      { s with sequence := getNextSequence envF.resp.rawLog }).trace, ?_, ?_⟩
    · rw [htraceAll, sends_append, sends_append, sends_gasPre]
      rfl
    · exact retry_sends_cases Msg msgs memo envR
        { s with sequence := getNextSequence envF.resp.rawLog }
  · intro hrR hcR
    have hrR1 : ReachesSend envR
        ({ s with sequence := getNextSequence envF.resp.rawLog } : BState).gas := hrR
    have hretry : broadcastRetry msgs memo envR
        { s with sequence := getNextSequence envF.resp.rawLog } =
        ⟨.ok envR.resp,
          { s with sequence := (getNextSequence envF.resp.rawLog + 1) % uint64Mod },
          gasPre s.gas ++ [.build, .sign, .encode, .send (getNextSequence envF.resp.rawLog)]⟩ := by
      rw [broadcastRetry_gas Msg msgs memo envR
          { s with sequence := getNextSequence envF.resp.rawLog } hrR1.1,
        broadcastRetryAfterGas_ok envR
          { s with sequence := getNextSequence envF.resp.rawLog } _ hrR1 hcR]
    have hout : Broadcast msgs memo envF envR s =
        ⟨.ok envR.resp,
          { s with sequence := (getNextSequence envF.resp.rawLog + 1) % uint64Mod },
          (gasPre s.gas ++ [.build, .sign, .encode, .send s.sequence]) ++
            (gasPre s.gas ++ [.build, .sign, .encode,
              .send (getNextSequence envF.resp.rawLog)])⟩ := by
      rw [Broadcast_eq, hbf, hretry]
      rfl
    refine ⟨?_, ?_, ?_, ?_⟩
    · rw [hout]
      show sends ((gasPre s.gas ++ [.build, .sign, .encode, .send s.sequence]) ++
        (gasPre s.gas ++ [.build, .sign, .encode,
          .send (getNextSequence envF.resp.rawLog)])) = _
      rw [sends_append, sends_append, sends_append, sends_gasPre]
      rfl
    · rw [hout]
    · rw [hout]
    · intro hlt
      rw [hout]
      show (getNextSequence envF.resp.rawLog + 1) % uint64Mod =
        getNextSequence envF.resp.rawLog + 1
      apply Nat.mod_eq_of_lt
      have hrel : uint64Mod = uint64Max + 1 := by
        unfold uint64Mod uint64Max
        norm_num
      omega

/-- The node rejects with code 32 and a raw log encoding expected 42. -/
def envBad42 : AttemptEnv :=
  { envOk with resp :=
      ⟨32, "x account sequence mismatch, expected 42, got 40: y", "resp32"⟩ }

theorem c3_witness :
    sends (Broadcast ([] : List Unit) "" envBad42 envOk ⟨7, 5, 21⟩).trace = [5, 42]
    ∧ (Broadcast ([] : List Unit) "" envBad42 envOk ⟨7, 5, 21⟩).state.sequence = 42 + 1 := by
  have h := (c3_retry_uses_extracted_sequence Unit [] "" envBad42 envOk ⟨7, 5, 21⟩
    (by decide) (by decide) (by decide) (by decide)).2 (by decide) (by decide)
  have hx : getNextSequence envBad42.resp.rawLog = 42 := by decide
  constructor
  · have h1 := h.1
    rw [hx] at h1
    exact h1
  · have h4 := h.2.2.2
    rw [hx] at h4
    exact h4 (by decide)

/-- Claim C5 (counterexample): the first attempt's response carries code 5
with a raw log from which no sequence can be extracted, yet the call still
performs a retry — two submissions occur — and the surfaced error is the
retry's failure, not the original response's error. -/
theorem c5_counterexample :
    getNextSequence ("boom") = 0
    ∧ (sends (Broadcast ([] : List Unit) "" envBad5 envBad7 ⟨7, 9, 21⟩).trace).length = 2
    ∧ (Broadcast ([] : List Unit) "" envBad5 envBad7 ⟨7, 9, 21⟩).result =
        .error (.wrapped (.broadcastFailed ("resp7")))
    ∧ (Broadcast ([] : List Unit) "" envBad5 envBad7 ⟨7, 9, 21⟩).result ≠
        .error (.wrapped (.broadcastFailed ("resp5"))) :=
  ⟨by decide, by decide, by decide, by decide⟩

/-- Claim C5 (amended): a first-attempt failure — gas-estimation error or
non-zero, non-mempool response — always triggers the single retry, whether
or not a corrected sequence was extracted; when extraction yields 0 the
retry runs on the unchanged state (same sequence), and the call's outcome is
the retry's outcome with the first attempt's steps prefixed and the error
wrapped: the original first-attempt error is dropped, not propagated. -/
theorem c5_retry_behaviour (Msg : Type) (msgs : List Msg) (memo : String)
    (envF envR : AttemptEnv) (s : BState) :
    (∀ e, s.gas = 0 → envF.calcGas = .err e → getNextSequence e = 0 →
       Broadcast msgs memo envF envR s =
         ⟨wrapResult (broadcastRetry msgs memo envR s).result,
           (broadcastRetry msgs memo envR s).state,
           Step.calcGas :: (broadcastRetry msgs memo envR s).trace⟩)
    ∧ (ReachesSend envF s.gas → envF.resp.code ≠ 0 →
       envF.resp.code ≠ errTxInMempoolCacheCode →
       getNextSequence envF.resp.rawLog = 0 →
       Broadcast msgs memo envF envR s =
         ⟨wrapResult (broadcastRetry msgs memo envR s).result,
           (broadcastRetry msgs memo envR s).state,
           (gasPre s.gas ++ [.build, .sign, .encode, .send s.sequence]) ++
             (broadcastRetry msgs memo envR s).trace⟩) := by
  constructor
  · intro e hg hc hx
    have hbf : broadcastFirst msgs memo envF envR s =
        ⟨(broadcastRetry msgs memo envR s).result, (broadcastRetry msgs memo envR s).state,
          Step.calcGas :: (broadcastRetry msgs memo envR s).trace⟩ := by
      unfold broadcastFirst
      rw [if_pos hg, hc]
      dsimp only
      rw [if_neg (by simp [hx])]
    rw [Broadcast_eq, hbf]
  · intro hr h0 h19 hx
    have hbf : broadcastFirst msgs memo envF envR s =
        ⟨(broadcastRetry msgs memo envR s).result, (broadcastRetry msgs memo envR s).state,
          (gasPre s.gas ++ [.build, .sign, .encode, .send s.sequence]) ++
            (broadcastRetry msgs memo envR s).trace⟩ := by
      rw [broadcastFirst_gas Msg msgs memo envF envR s hr.1,
        broadcastFirstAfterGas_conflict Msg msgs memo envF envR s (gasPre s.gas) hr h0 h19,
        if_neg (by simp [hx])]
    rw [Broadcast_eq, hbf]

theorem c5_witness :
    Broadcast ([] : List Unit) "" envBad5 envOk ⟨3, 8, 21⟩ =
      ⟨wrapResult (broadcastRetry ([] : List Unit) "" envOk ⟨3, 8, 21⟩).result,
        (broadcastRetry ([] : List Unit) "" envOk ⟨3, 8, 21⟩).state,
        (gasPre 21 ++ [.build, .sign, .encode, .send 8]) ++
          (broadcastRetry ([] : List Unit) "" envOk ⟨3, 8, 21⟩).trace⟩ :=
  (c5_retry_behaviour Unit [] "" envBad5 envOk ⟨3, 8, 21⟩).2
    (by decide) (by decide) (by decide) (by decide)

/-! ### Claim C9: mutual exclusion of concurrent Broadcast calls

blockchain.go lines 185-188: `broadcast` acquires `b.mu` only when
`isRetry` is false and releases it by `defer` when that outermost invocation
returns — after the nested `isRetry = true` recursion, which acquires
nothing, has finished.  One external call is therefore the action sequence
`lock`, then its collaborator steps (including the retry's), then `unlock`.
Two concurrent `Broadcast` calls are modelled as two threads each running
such a program under an interleaving scheduler with one mutex: a scheduled
`lock` blocks (performs nothing) while the mutex is held, every other
instruction executes.  Serialization means the work steps of the two calls
never interleave: the executed work actions form two contiguous blocks. -/

inductive CallAct
  | lock
  | work (w : Step)
  | unlock
deriving Repr, DecidableEq

/-- The atomic actions of one external `Broadcast` call: the single lock
acquisition at the non-retry entry, the collaborator steps of the first
attempt and of the one possible retry, and the deferred release. -/
def callProgram {Msg : Type} (msgs : List Msg) (memo : String)
    (envF envR : AttemptEnv) (s : BState) : List CallAct :=
  CallAct.lock ::
    ((broadcastFirst msgs memo envF envR s).trace.map CallAct.work ++ [CallAct.unlock])

/-- Two caller threads (identified by `Bool`), each holding the remainder of
its program, plus the mutex owner. -/
structure Sys where
  holder : Option Bool
  prog : Bool → List CallAct

def setProg (p : Bool → List CallAct) (t : Bool) (l : List CallAct) :
    Bool → List CallAct :=
  fun u => if u = t then l else p u

/-- One scheduler step of thread `t`: `lock` blocks while the mutex is held
and otherwise takes it; `work` and `unlock` execute; the performed action is
reported. -/
def stepSys (sys : Sys) (t : Bool) : Sys × Option CallAct :=
  match sys.prog t with
  | [] => (sys, none)
  | CallAct.lock :: rest =>
    match sys.holder with
    | none => (⟨some t, setProg sys.prog t rest⟩, some CallAct.lock)
    | some _ => (sys, none)
  | CallAct.work w :: rest => (⟨sys.holder, setProg sys.prog t rest⟩, some (CallAct.work w))
  | CallAct.unlock :: rest => (⟨none, setProg sys.prog t rest⟩, some CallAct.unlock)

/-- Execute a schedule, collecting the performed actions with their thread. -/
def runSys (sys : Sys) : List Bool → List (Bool × CallAct)
  | [] => []
  | t :: sch =>
    match stepSys sys t with
    | (sys2, none) => runSys sys2 sch
    | (sys2, some a) => (t, a) :: runSys sys2 sch

def isWork : CallAct → Bool
  | CallAct.work _ => true
  | _ => false

/-- Thread ids of the executed work actions, in execution order. -/
def workIds (tr : List (Bool × CallAct)) : List Bool :=
  tr.filterMap fun p => if isWork p.2 then some p.1 else none

/-- A two-block list: all entries of one thread precede all entries of the
other — the two calls' work does not interleave. -/
def Serialized (l : List Bool) : Prop :=
  ∃ n m t, l = List.replicate n t ++ List.replicate m (!t)

/-- `t` may still append entries: the list is a (possibly empty) block of
the other thread followed by a (possibly empty) block of `t`. -/
def canAppend (t : Bool) (W : List Bool) : Prop :=
  ∃ n m, W = List.replicate n (!t) ++ List.replicate m t

/-- Machine invariant: every thread is untouched, finished, or the current
mutex owner part-way through its work; the work log is serialized and open
for the owner. -/
def SysInv (ws : Bool → List Step) (W : List Bool) (sys : Sys) : Prop :=
  (∀ t, sys.prog t = CallAct.lock :: ((ws t).map CallAct.work ++ [CallAct.unlock])
        ∧ sys.holder ≠ some t ∧ t ∉ W
      ∨ sys.prog t = [] ∧ sys.holder ≠ some t
      ∨ sys.holder = some t
        ∧ ∃ l : List Step, sys.prog t = l.map CallAct.work ++ [CallAct.unlock])
  ∧ (∀ t, sys.holder = some t → canAppend t W)
  ∧ Serialized W

theorem setProg_same (p : Bool → List CallAct) (t : Bool) (l : List CallAct) :
    setProg p t l t = l := by
  simp [setProg]

theorem setProg_other (p : Bool → List CallAct) (t : Bool) (l : List CallAct)
    (u : Bool) (h : u ≠ t) : setProg p t l u = p u := by
  simp [setProg, h]

theorem stepSys_lock_free (sys : Sys) (t : Bool) (rest : List CallAct)
    (h : sys.prog t = CallAct.lock :: rest) (hh : sys.holder = none) :
    stepSys sys t = (⟨some t, setProg sys.prog t rest⟩, some CallAct.lock) := by
  unfold stepSys
  rw [h, hh]

theorem stepSys_lock_held (sys : Sys) (t : Bool) (rest : List CallAct) (u : Bool)
    (h : sys.prog t = CallAct.lock :: rest) (hh : sys.holder = some u) :
    stepSys sys t = (sys, none) := by
  unfold stepSys
  rw [h, hh]

theorem stepSys_empty (sys : Sys) (t : Bool) (h : sys.prog t = []) :
    stepSys sys t = (sys, none) := by
  unfold stepSys
  rw [h]

theorem stepSys_work (sys : Sys) (t : Bool) (w : Step) (rest : List CallAct)
    (h : sys.prog t = CallAct.work w :: rest) :
    stepSys sys t = (⟨sys.holder, setProg sys.prog t rest⟩, some (CallAct.work w)) := by
  unfold stepSys
  rw [h]

theorem stepSys_unlock (sys : Sys) (t : Bool) (rest : List CallAct)
    (h : sys.prog t = CallAct.unlock :: rest) :
    stepSys sys t = (⟨none, setProg sys.prog t rest⟩, some CallAct.unlock) := by
  unfold stepSys
  rw [h]

theorem runSys_cons (sys : Sys) (t : Bool) (sch : List Bool) :
    runSys sys (t :: sch) =
      match stepSys sys t with
      | (sys2, none) => runSys sys2 sch
      | (sys2, some a) => (t, a) :: runSys sys2 sch := rfl

theorem workIds_cons_lock (t : Bool) (rest : List (Bool × CallAct)) :
    workIds ((t, CallAct.lock) :: rest) = workIds rest := rfl

theorem workIds_cons_unlock (t : Bool) (rest : List (Bool × CallAct)) :
    workIds ((t, CallAct.unlock) :: rest) = workIds rest := rfl

theorem workIds_cons_work (t : Bool) (w : Step) (rest : List (Bool × CallAct)) :
    workIds ((t, CallAct.work w) :: rest) = t :: workIds rest := rfl

theorem replicate_snoc (n : Nat) (a : Bool) :
    List.replicate n a ++ [a] = List.replicate (n + 1) a := by
  induction n with
  | zero => rfl
  | succ k ih => simp [List.replicate_succ, List.cons_append, ih]

theorem serialized_of_canAppend (t : Bool) (W : List Bool) (h : canAppend t W) :
    Serialized W := by
  obtain ⟨n, m, rfl⟩ := h
  exact ⟨n, m, !t, by rw [Bool.not_not]⟩

theorem canAppend_snoc (t : Bool) (W : List Bool) (h : canAppend t W) :
    canAppend t (W ++ [t]) := by
  obtain ⟨n, m, rfl⟩ := h
  exact ⟨n, m + 1, by rw [List.append_assoc, replicate_snoc]⟩

theorem canAppend_of_not_mem (W : List Bool) (t : Bool)
    (hser : Serialized W) (hmem : t ∉ W) : canAppend t W := by
  obtain ⟨n, m, a, rfl⟩ := hser
  have hat : a = t ∨ a = !t := by cases a <;> cases t <;> simp
  rcases hat with rfl | rfl
  · have hn : n = 0 := by
      by_contra hn0
      exact hmem (List.mem_append.mpr (Or.inl (List.mem_replicate.mpr ⟨hn0, rfl⟩)))
    subst hn
    exact ⟨m, 0, by simp⟩
  · have hm : m = 0 := by
      by_contra hm0
      refine hmem (List.mem_append.mpr (Or.inr ?_))
      rw [Bool.not_not]
      exact List.mem_replicate.mpr ⟨hm0, rfl⟩
    subst hm
    exact ⟨n, 0, by simp⟩

/-- Under the invariant, every schedule extends the work log to a serialized
list: the two calls' work steps never interleave. -/
theorem runSys_workIds_serialized (ws : Bool → List Step) :
    ∀ (sch : List Bool) (sys : Sys) (W : List Bool),
      SysInv ws W sys → Serialized (W ++ workIds (runSys sys sch)) := by
  intro sch
  induction sch with
  | nil =>
    intro sys W inv
    simpa [runSys, workIds] using inv.2.2
  | cons t sch ih =>
    intro sys W inv
    obtain ⟨hprog, hcan, hser⟩ := inv
    rcases hprog t with ⟨hfull, hnh, hnm⟩ | ⟨hempty, hnh⟩ | ⟨hhold, l, hl⟩
    · cases hh : sys.holder with
      | none =>
        rw [runSys_cons, stepSys_lock_free sys t _ hfull hh]
        dsimp only
        rw [workIds_cons_lock]
        apply ih
        refine ⟨?_, ?_, hser⟩
        · intro u
          by_cases hu : u = t
          · subst hu
            exact Or.inr (Or.inr ⟨rfl, ws u, setProg_same sys.prog u _⟩)
          · rcases hprog u with ⟨h1, h2, h3⟩ | ⟨h1, h2⟩ | ⟨h2, l', h1⟩
            · exact Or.inl ⟨by dsimp only; rw [setProg_other sys.prog t _ u hu]; exact h1,
                fun hcontra => hu (Option.some.inj hcontra).symm, h3⟩
            · exact Or.inr (Or.inl ⟨by dsimp only; rw [setProg_other sys.prog t _ u hu]; exact h1,
                fun hcontra => hu (Option.some.inj hcontra).symm⟩)
            · rw [hh] at h2
              exact absurd h2 (by simp)
        · intro u hu2
          have hu : t = u := Option.some.inj hu2
          subst hu
          exact canAppend_of_not_mem W t hser hnm
      | some u0 =>
        rw [runSys_cons, stepSys_lock_held sys t _ u0 hfull hh]
        dsimp only
        exact ih sys W ⟨hprog, hcan, hser⟩
    · rw [runSys_cons, stepSys_empty sys t hempty]
      dsimp only
      exact ih sys W ⟨hprog, hcan, hser⟩
    · cases l with
      | cons w l' =>
        have hl' : sys.prog t = CallAct.work w :: (l'.map CallAct.work ++ [CallAct.unlock]) := by
          simpa using hl
        rw [runSys_cons, stepSys_work sys t w _ hl']
        dsimp only
        rw [workIds_cons_work, List.append_cons]
        apply ih
        have hcA : canAppend t (W ++ [t]) := canAppend_snoc t W (hcan t hhold)
        refine ⟨?_, ?_, serialized_of_canAppend t (W ++ [t]) hcA⟩
        · intro u
          by_cases hu : u = t
          · subst hu
            exact Or.inr (Or.inr ⟨hhold, l', setProg_same sys.prog u _⟩)
          · rcases hprog u with ⟨h1, h2, h3⟩ | ⟨h1, h2⟩ | ⟨h2, l2, h1⟩
            · refine Or.inl ⟨by dsimp only; rw [setProg_other sys.prog t _ u hu]; exact h1, h2, ?_⟩
              simp only [List.mem_append, List.mem_singleton]
              rintro (hmem | rfl)
              · exact h3 hmem
              · exact hu rfl
            · exact Or.inr (Or.inl ⟨by dsimp only; rw [setProg_other sys.prog t _ u hu]; exact h1, h2⟩)
            · rw [hhold] at h2
              exact absurd (Option.some.inj h2) (fun h => hu h.symm)
        · intro u hu2
          have hu : t = u := Option.some.inj (hhold.symm.trans hu2)
          subst hu
          exact hcA
      | nil =>
        have hl' : sys.prog t = CallAct.unlock :: [] := by simpa using hl
        rw [runSys_cons, stepSys_unlock sys t [] hl']
        dsimp only
        rw [workIds_cons_unlock]
        apply ih
        refine ⟨?_, ?_, hser⟩
        · intro u
          by_cases hu : u = t
          · subst hu
            exact Or.inr (Or.inl ⟨setProg_same sys.prog u _, by simp⟩)
          · rcases hprog u with ⟨h1, h2, h3⟩ | ⟨h1, h2⟩ | ⟨h2, l2, h1⟩
            · exact Or.inl ⟨by dsimp only; rw [setProg_other sys.prog t _ u hu]; exact h1, by simp, h3⟩
            · exact Or.inr (Or.inl ⟨by dsimp only; rw [setProg_other sys.prog t _ u hu]; exact h1, by simp⟩)
            · rw [hhold] at h2
              exact absurd (Option.some.inj h2) (fun h => hu h.symm)
        · intro u hu2
          simp at hu2

/-- Claim C9: one external `Broadcast` call is the bracketed action sequence
`lock`, its work steps (first attempt plus the one permitted retry, which
re-acquires nothing — the program contains exactly one lock acquisition,
placed first, with the release last), and under the mutex scheduler any
interleaving of two such calls executes their work steps in two contiguous
blocks: the estimate/build/sign/send steps of the two calls never
interleave. -/
theorem c9_serialized_broadcasts :
    (∀ (Msg : Type) (msgs : List Msg) (memo : String) (envF envR : AttemptEnv) (s : BState),
       callProgram msgs memo envF envR s =
         CallAct.lock ::
           ((broadcastFirst msgs memo envF envR s).trace.map CallAct.work ++ [CallAct.unlock])
       ∧ (callProgram msgs memo envF envR s).count CallAct.lock = 1
       ∧ (callProgram msgs memo envF envR s).getLast? = some CallAct.unlock)
    ∧ (∀ (Msg0 Msg1 : Type) (msgs0 : List Msg0) (msgs1 : List Msg1)
        (memo0 memo1 : String) (eF0 eR0 eF1 eR1 : AttemptEnv) (s0 s1 : BState)
        (sch : List Bool),
        Serialized (workIds (runSys
          ⟨none, fun t => if t then callProgram msgs1 memo1 eF1 eR1 s1
                          else callProgram msgs0 memo0 eF0 eR0 s0⟩ sch))) := by
  constructor
  · intro Msg msgs memo envF envR s
    refine ⟨rfl, ?_, ?_⟩
    · have h1 : ((broadcastFirst msgs memo envF envR s).trace.map CallAct.work).count
          CallAct.lock = 0 :=
        List.count_eq_zero.mpr (by simp [List.mem_map])
      have h2 : ([CallAct.unlock] : List CallAct).count CallAct.lock = 0 := by decide
      show (CallAct.lock ::
        ((broadcastFirst msgs memo envF envR s).trace.map CallAct.work ++ [CallAct.unlock])).count
          CallAct.lock = 1
      rw [List.count_cons_self, List.count_append, h1, h2]
    · show (CallAct.lock ::
        ((broadcastFirst msgs memo envF envR s).trace.map CallAct.work ++ [CallAct.unlock])).getLast?
          = some CallAct.unlock
      rw [← List.cons_append, List.getLast?_concat]
  · intro Msg0 Msg1 msgs0 msgs1 memo0 memo1 eF0 eR0 eF1 eR1 s0 s1 sch
    have inv0 : SysInv
        (fun t => if t then (broadcastFirst msgs1 memo1 eF1 eR1 s1).trace
                  else (broadcastFirst msgs0 memo0 eF0 eR0 s0).trace) []
        ⟨none, fun t => if t then callProgram msgs1 memo1 eF1 eR1 s1
                        else callProgram msgs0 memo0 eF0 eR0 s0⟩ := by
      refine ⟨?_, ?_, ⟨0, 0, true, rfl⟩⟩
      · intro u
        refine Or.inl ⟨?_, by simp, by simp⟩
        cases u <;> rfl
      · intro u hu
        simp at hu
    have h := runSys_workIds_serialized
      (fun t => if t then (broadcastFirst msgs1 memo1 eF1 eR1 s1).trace
                else (broadcastFirst msgs0 memo0 eF0 eR0 s0).trace)
      sch
      ⟨none, fun t => if t then callProgram msgs1 memo1 eF1 eR1 s1
                      else callProgram msgs0 memo0 eF0 eR0 s0⟩ [] inv0
    simpa using h

end Broadcaster
